import Mathlib

/-!
Verification of the core of `telegram-checker.py` (a batch Telegram
account-lookup tool) against its natural-language specification.

The source is shallowly embedded:
* the pure helpers (`validate_phone_number`, `validate_username`,
  `get_enhanced_user_status`) become plain Lean functions;
* the network-facing resolution protocol (`check_phone_number`,
  `check_username`, `process_phones` / `process_usernames`) becomes a
  computation in a small monad `PM` that threads the trace of issued
  platform-client calls and models Python exceptions with `Except`.

The Telethon client is the external collaborator: it is modelled as a
record `ClientOps` of response functions.  Each response may depend on
the full call history issued so far (`List Call`), which lets a single
record describe a stateful platform (e.g. a delete that succeeds the
first time and fails the second).  Regular expressions are modelled
over ASCII character classes, which covers every input the claims and
the spec mention.
-/

/-- Python exceptions that the modelled code can raise or observe.
`valueError` is raised by the validators; `usernameNotOccupied` models
`telethon.errors.UsernameNotOccupiedError`; `rpcError` stands for any
other ordinary `Exception` coming out of the client. -/
inductive PyExn where
  | valueError (msg : String)
  | usernameNotOccupied (msg : String)
  | rpcError (msg : String)

deriving DecidableEq, Repr

/-- Python `str(e)` on a modelled exception. -/
def pyStr : PyExn → String
  | .valueError m => m
  | .usernameNotOccupied m => m
  | .rpcError m => m

deriving instance DecidableEq for Except

/-- Drop the longest prefix satisfying `p` (character-list level). -/
def dropWhileList (p : Char → Bool) : List Char → List Char
  | [] => []
  | c :: cs => if p c then dropWhileList p cs else c :: cs

/-- Python `str.strip()`: remove whitespace from both ends (rendered at
the character-list level so that concrete runs evaluate). -/
def pyStrip (s : String) : String :=
  String.mk ((dropWhileList Char.isWhitespace
    ((dropWhileList Char.isWhitespace s.data).reverse)).reverse)

/-- The presence-status variants of `telethon.tl.types.TypeUserStatus`,
as consumed by `get_enhanced_user_status` (source lines 103-149).
`offline` carries the already-`strftime`-formatted UTC timestamp of
`status.was_online` (the formatting itself is an injective
datetime-to-string rendering and is treated as opaque). `noStatus` is
Python `None`; `unrecognized` is any other variant (e.g. a future
status type), carried with an opaque tag. -/
inductive StatusVariant where
  | online
  | offline (wasOnlineUtc : String)
  | recently
  | lastWeek
  | lastMonth
  | noStatus
  | unrecognized (tag : String)

deriving DecidableEq, Repr

/-- The dictionary built by `get_enhanced_user_status` (source 104-109). -/
structure StatusInfo where
  display_text : String
  exact_time : Option String
  status_type : String
  privacy_restricted : Bool

deriving DecidableEq, Repr

/-- Source lines 103-149: `get_enhanced_user_status`.  The Python builds
a default dict and `update`s it per `isinstance` branch; each branch
below spells out the resulting dictionary, with fields the branch does
not update kept at their defaults (`exact_time = None`;
`privacy_restricted = False` in the `None` branch; everything default
in the fall-through branch). -/
def get_enhanced_user_status : StatusVariant → StatusInfo
  | .online =>
      { display_text := "Currently online", exact_time := none,
        status_type := "online", privacy_restricted := false }
  | .offline t =>
      { display_text := "Last seen: " ++ t, exact_time := some t,
        status_type := "offline", privacy_restricted := false }
  | .recently =>
      { display_text := "Last seen recently (1 second - 3 days ago)", exact_time := none,
        status_type := "recently", privacy_restricted := true }
  | .lastWeek =>
      { display_text := "Last seen within a week (3-7 days ago)", exact_time := none,
        status_type := "last_week", privacy_restricted := true }
  | .lastMonth =>
      { display_text := "Last seen within a month (7-30 days ago)", exact_time := none,
        status_type := "last_month", privacy_restricted := true }
  | .noStatus =>
      { display_text := "Status unavailable", exact_time := none,
        status_type := "unavailable", privacy_restricted := false }
  | .unrecognized _ =>
      { display_text := "Unknown", exact_time := none,
        status_type := "unknown", privacy_restricted := false }

/-- Model of `re.sub(r'[^\d+]', '', s)`: drop every character that is not an
ASCII digit or a plus sign (note: every `+` is kept, not only a leading
one). -/
def stripNonPhone (s : String) : String :=
  String.mk (s.data.filter (fun c => c.isDigit || c == '+'))

/-- Model of `re.match(r'^\+\d{10,15}$', p)` (as a total match over ASCII),
rendered at the character-list level: a leading `+` followed by
10 to 15 digits and nothing else. -/
def matchesPhoneRegex (p : String) : Bool :=
  match p.data with
  | '+' :: ds => ds.all Char.isDigit && decide (10 ≤ ds.length) && decide (ds.length ≤ 15)
  | _ => false

/-- Python `phone.startswith('+')`, rendered as a head-character check. -/
def pyStartsWithPlus (s : String) : Bool := decide (s.data.head? = some '+')

/-- Source lines 151-155: `validate_phone_number`.  Strips whitespace,
removes all characters other than digits and `+`, prepends `+` when
missing, and then requires the result to match `^\+\d{10,15}$`,
raising `ValueError(f"Invalid phone number format: {phone}")` (note:
the message names the *normalized* string) otherwise. -/
def validate_phone_number (phone : String) : Except PyExn String :=
  let p := stripNonPhone (pyStrip phone)
  let p := if pyStartsWithPlus p then p else "+" ++ p
  if matchesPhoneRegex p then .ok p
  else .error (.valueError ("Invalid phone number format: " ++ p))

/-- ASCII `\w`: letter, digit or underscore. -/
def isWordChar (c : Char) : Bool :=
  c.isAlpha || c.isDigit || c == '_'

/-- Model of `re.match(r'^[A-Za-z]\w{3,30}[A-Za-z0-9]$', u)` over ASCII: a
letter, then 3 to 30 word characters, then a letter or digit. -/
def matchesUsernameRegex (u : String) : Bool :=
  match u.data with
  | [] => false
  | c :: rest =>
      c.isAlpha && decide (4 ≤ rest.length) && decide (rest.length ≤ 31) &&
        rest.dropLast.all isWordChar &&
        (match rest.getLast? with
         | some d => d.isAlpha || d.isDigit
         | none => false)

/-- Source lines 157-160: `validate_username`.  Strips whitespace and
all leading `@`, then requires the platform username grammar. -/
def validate_username (username : String) : Except PyExn String :=
  let u := String.mk (dropWhileList (fun c => c == '@') (pyStrip username).data)
  if matchesUsernameRegex u then .ok u
  else .error (.valueError ("Invalid username format: " ++ u))

/-- One request issued to the Telethon client.  A trace of these is the
observable network behaviour of a run. -/
inductive Call where
  | getEntityPhone (phone : String)
  | getEntityUsername (username : String)
  | getEntityId (id : Int)
  | importContacts (phone : String)
  | deleteContacts (id : Int)
  | getFullUser (id : Int)
  | getProfilePhotos (id : Int)
  | downloadMedia (path : String)

deriving DecidableEq, Repr

def Call.isImport : Call → Bool
  | .importContacts _ => true
  | _ => false

def Call.isDelete : Call → Bool
  | .deleteContacts _ => true
  | _ => false

/-- Number of `ImportContactsRequest`s in a trace. -/
def countImports (l : List Call) : Nat := (l.filter Call.isImport).length

/-- Number of `DeleteContactsRequest`s in a trace. -/
def countDeletes (l : List Call) : Nat := (l.filter Call.isDelete).length

/-- A `telethon.tl.types.User`-like entity as the resolver consumes it.
Optional fields model Python attributes that may be `None`; the
boolean flags fold `getattr(user, flag, False)` into a plain `Bool`.
`isUser` records `isinstance(entity, types.User)` (a username can also
resolve to a channel or chat). -/
structure Entity where
  id : Int
  username : Option String
  first_name : Option String
  last_name : Option String
  premium : Bool
  verified : Bool
  fake : Bool
  bot : Bool
  status : StatusVariant
  isUser : Bool

deriving DecidableEq, Repr

/-- The `full_user` payload of `GetFullUserRequest`; `none` models an
absent or `None` attribute (read through `getattr` with a default). -/
structure FullUserInfo where
  about : Option String
  common_chats_count : Option Int
  blocked : Option Bool

deriving DecidableEq, Repr

/-- The `TelegramUser` dataclass (source lines 26-44).  `first_name` and
`last_name` are plain strings because every constructor site passes
`getattr(...) or ""`. -/
structure TelegramUser where
  id : Int
  username : Option String
  first_name : String
  last_name : String
  phone : String
  premium : Bool
  verified : Bool
  fake : Bool
  bot : Bool
  last_seen : String
  last_seen_exact : Option String
  status_type : Option String
  bio : Option String
  common_chats_count : Option Int
  blocked : Option Bool
  profile_photos : List String
  privacy_restricted : Bool

deriving DecidableEq, Repr

/-- The black-box Telethon client.  Each operation maps the call
history issued so far and the request arguments to a response; an
`Except.error` response models the awaited call raising. -/
structure ClientOps where
  get_entity_phone : List Call → String → Except PyExn Entity
  get_entity_username : List Call → String → Except PyExn Entity
  get_entity_id : List Call → Int → Except PyExn Entity
  import_contacts : List Call → String → Except PyExn (List Entity)
  delete_contacts : List Call → Int → Except PyExn Unit
  get_full_user : List Call → Int → Except PyExn FullUserInfo
  get_profile_photos : List Call → Int → Except PyExn (List Unit)
  download_media : List Call → String → Except PyExn Unit

/-- The resolution monad: a computation threads the trace of issued
calls and either produces a value or an uncaught Python exception.
The trace is the real-world side effect, so it is kept (and keeps
growing) across exceptional exits. -/
def PM (α : Type) : Type := List Call → List Call × Except PyExn α

/-- Sequencing of two `PM` computations; an exception in
the first skips the second (ordinary Python control flow). -/
def pmBind {α β : Type} (m : PM α) (f : α → PM β) : PM β := fun log =>
  match m log with
  | (log', .ok a) => f a log'
  | (log', .error e) => (log', .error e)

def pmPure {α : Type} (a : α) : PM α := fun log => (log, .ok a)

/-- Issue one client call: the call is appended to the trace whether or
not the response is an exception (an attempted request is a request). -/
def oper {α : Type} (c : Call) (resp : List Call → Except PyExn α) : PM α :=
  fun log => (log ++ [c], resp log)

/-- Run a pure `Except` (e.g. a validator) inside `PM`: no call issued. -/
def liftE {α : Type} (e : Except PyExn α) : PM α := fun log => (log, e)

/-- Python `try: m except: h` (the handler receives the exception). -/
def pmTry {α : Type} (m : PM α) (h : PyExn → PM α) : PM α := fun log =>
  match m log with
  | (log', .ok a) => (log', .ok a)
  | (log', .error e) => h e log'

/-- Python `try: m finally: fin`: the finalizer always runs; an
exception escaping the finalizer replaces the body's outcome. -/
def pmFinally {α : Type} (m : PM α) (fin : PM Unit) : PM α := fun log =>
  match m log with
  | (log', .ok a) =>
      (match fin log' with
       | (log2, .ok _) => (log2, .ok a)
       | (log2, .error e) => (log2, .error e))
  | (log', .error e) =>
      (match fin log' with
       | (log2, .ok _) => (log2, .error e)
       | (log2, .error e2) => (log2, .error e2))

/-- Source lines 53-60 (the inner `try` of `TelegramUser.from_user`):
fetch `GetFullUserRequest` and read `about` / `common_chats_count` /
`blocked` through `getattr` defaults; a bare `except: pass` keeps the
pre-initialized defaults `('', 0, False)` on any failure. -/
def fetchFullInfo (ops : ClientOps) (uid : Int) : PM (String × Int × Bool) :=
  pmTry
    (pmBind (oper (.getFullUser uid) (fun h => ops.get_full_user h uid)) (fun fu =>
      pmPure (fu.about.getD "", fu.common_chats_count.getD 0, fu.blocked.getD false)))
    (fun _ => pmPure ("", 0, false))

/-- Source lines 46-101: `TelegramUser.from_user`.  After the swallowed
enrichment fetch, everything remaining (status classification, record
construction) is total, so the outer `except Exception` branch of the
Python (lines 83-101) is unreachable and is not represented. -/
def TelegramUser.from_user (ops : ClientOps) (user : Entity) (phone : String) :
    PM TelegramUser :=
  pmBind (fetchFullInfo ops user.id) (fun info =>
    let si := get_enhanced_user_status user.status
    pmPure {
      id := user.id
      username := user.username
      first_name := user.first_name.getD ""
      last_name := user.last_name.getD ""
      phone := phone
      premium := user.premium
      verified := user.verified
      fake := user.fake
      bot := user.bot
      last_seen := si.display_text
      last_seen_exact := si.exact_time
      status_type := some si.status_type
      bio := some info.1
      common_chats_count := some info.2.1
      blocked := some info.2.2
      profile_photos := []
      privacy_restricted := si.privacy_restricted })

/-- Python `f"{optional}"`: `None` renders as `"None"`. -/
def pyOptStr : Option String → String
  | some s => s
  | none => "None"

/-- Model of the photo path built at source line 209. -/
def photoPath (uid : Int) (identifier : String) (i : Nat) : String :=
  "profile_photos/" ++ toString uid ++ "_" ++ identifier ++ "_photo_" ++
    toString i ++ ".jpg"

/-- The download loop of `download_all_profile_photos` (source 207-211).
Each iteration issues `download_media`; a failure propagates to the
function's bare `except` (source 212), so the paths appended before the
failure persist on `user_data` — hence the loop returns the partial
accumulator instead of an exception. -/
def downloadLoop (ops : ClientOps) (uid : Int) (identifier : String) :
    List Unit → Nat → List String → List Call → List Call × List String
  | [], _, acc, log => (log, acc)
  | _ :: rest, i, acc, log =>
      let path := photoPath uid identifier i
      match ops.download_media log path with
      | .ok _ =>
          downloadLoop ops uid identifier rest (i + 1) (acc ++ [path])
            (log ++ [.downloadMedia path])
      | .error _ => (log ++ [.downloadMedia path], acc)

/-- Source lines 202-213: `download_all_profile_photos`.  A failing
`get_profile_photos` (or an empty photo list) leaves `user_data`
untouched; otherwise `profile_photos` is reset to `[]` and filled with
the successfully downloaded paths.  All failures are swallowed by the
bare `except`, so the computation never raises. -/
def download_all_profile_photos (ops : ClientOps) (user : Entity)
    (ud : TelegramUser) : PM TelegramUser := fun log =>
  let log1 := log ++ [.getProfilePhotos user.id]
  match ops.get_profile_photos log user.id with
  | .error _ => (log1, .ok ud)
  | .ok photos =>
      if photos.isEmpty then (log1, .ok ud)
      else
        let identifier := if ud.phone ≠ "" then ud.phone else pyOptStr ud.username
        let r := downloadLoop ops user.id identifier photos 0 [] log1
        (r.1, .ok { ud with profile_photos := r.2 })

/-- Source lines 218-222: the direct branch of `check_phone_number` —
`get_entity(phone)`, then `from_user`, then photo download. -/
def directPhoneLookup (ops : ClientOps) (p : String) : PM (Option TelegramUser) :=
  pmBind (oper (.getEntityPhone p) (fun h => ops.get_entity_phone h p)) (fun user =>
  pmBind (TelegramUser.from_user ops user p) (fun tu =>
  pmBind (download_all_profile_photos ops user tu) (fun tu2 =>
  pmPure (some tu2))))

/-- Source lines 230-240: the `try/finally` around the re-resolution of
the imported user.  The body re-resolves the entity, issues an inline
(unprotected) `DeleteContactsRequest`, then builds and enriches the
profile; the `finally` issues a second `DeleteContactsRequest` whose
own failure is swallowed by `except: pass`. -/
def resolveFromContact (ops : ClientOps) (p : String) (u : Entity) :
    PM (Option TelegramUser) :=
  pmFinally
    (pmBind (oper (.getEntityId u.id) (fun h => ops.get_entity_id h u.id)) (fun full_user =>
     pmBind (oper (.deleteContacts u.id) (fun h => ops.delete_contacts h u.id)) (fun _ =>
     pmBind (TelegramUser.from_user ops full_user p) (fun tu =>
     pmBind (download_all_profile_photos ops full_user tu) (fun tu2 =>
     pmPure (some tu2))))))
    (pmTry
      (pmBind (oper (.deleteContacts u.id) (fun h => ops.delete_contacts h u.id)) (fun _ =>
        pmPure ()))
      (fun _ => pmPure ()))

/-- Source lines 224-240: the import fallback of `check_phone_number`.
`ImportContactsRequest` is issued; `if not result.users: return None`
exits *before* the `try/finally`, so no deletion is attempted on that
path; otherwise `result.users[0]` is taken to `resolveFromContact`. -/
def contactFallback (ops : ClientOps) (p : String) : PM (Option TelegramUser) :=
  pmBind (oper (.importContacts p) (fun h => ops.import_contacts h p)) (fun users =>
    match users with
    | [] => pmPure none
    | u :: _ => resolveFromContact ops p u)

/-- Source lines 215-243: `check_phone_number`.  Validation happens
first (inside the outer `try`); a bare `except:` routes any failure of
the direct branch to the import fallback; the outer
`except Exception as e: ... return None` converts every remaining
exception — including the validator's `ValueError` — into `None`. -/
def check_phone_number (ops : ClientOps) (phone : String) : PM (Option TelegramUser) :=
  pmTry
    (pmBind (liftE (validate_phone_number phone)) (fun p =>
      pmTry (directPhoneLookup ops p) (fun _ => contactFallback ops p)))
    (fun _ => pmPure none)

/-- Source lines 245-261: `check_username`.  Validation, direct entity
lookup, an `isinstance(user, types.User)` guard, then profile build and
photo download.  The three handlers (`ValueError`,
`UsernameNotOccupiedError`, `Exception`) all log and return `None`, so
they are folded into one catch-all returning `none`. -/
def check_username (ops : ClientOps) (username : String) : PM (Option TelegramUser) :=
  pmTry
    (pmBind (liftE (validate_username username)) (fun un =>
     pmBind (oper (.getEntityUsername un) (fun h => ops.get_entity_username h un)) (fun user =>
       if user.isUser then
         pmBind (TelegramUser.from_user ops user "") (fun tu =>
         pmBind (download_all_profile_photos ops user tu) (fun tu2 =>
         pmPure (some tu2)))
       else pmPure none)))
    (fun _ => pmPure none)

/-- One value of the per-identifier result mapping: either the
`asdict` of a `TelegramUser` or an `{"error": msg}` record. -/
inductive Entry where
  | user (u : TelegramUser)
  | error (msg : String)

deriving DecidableEq, Repr

/-- Python `dict` insertion on an insertion-ordered association list:
overwriting an existing key keeps its position, a new key is appended. -/
def dictInsert (m : List (String × Entry)) (k : String) (v : Entry) :
    List (String × Entry) :=
  if m.any (fun p => p.1 = k) then
    m.map (fun p => if p.1 = k then (k, v) else p)
  else m ++ [(k, v)]

/-- The keys of a result mapping, in insertion order. -/
def keysOf (m : List (String × Entry)) : List String := m.map Prod.fst

/-- One iteration of the `process_phones` / `process_usernames` loop
(source 268-278 and 286-296; the two loops are identical up to the
resolver and console text).  The identifier is stripped; blanks are
skipped; the resolver's answer (or `None`) is recorded under the
*stripped* key; a `ValueError` is recorded as its message and any
other exception as `"Unexpected error: ..."`. -/
def batchStep (resolve : String → PM (Option TelegramUser))
    (results : List (String × Entry)) (raw : String) :
    PM (List (String × Entry)) :=
  let x := (pyStrip raw)
  if x = "" then pmPure results
  else
    pmTry
      (pmBind (resolve x) (fun user =>
        pmPure (dictInsert results x
          (match user with
           | some u => Entry.user u
           | none => Entry.error "No Telegram account found"))))
      (fun e =>
        match e with
        | .valueError msg => pmPure (dictInsert results x (.error msg))
        | e' => pmPure (dictInsert results x
            (.error ("Unexpected error: " ++ pyStr e'))))

/-- The `for` loop shared by `process_phones` / `process_usernames`,
generic in the resolver (the spec's `runBatch`). -/
def processLoop (resolve : String → PM (Option TelegramUser)) :
    List String → List (String × Entry) → PM (List (String × Entry))
  | [], results => pmPure results
  | x :: xs, results =>
      pmBind (batchStep resolve results x) (fun r => processLoop resolve xs r)

/-- Source lines 263-279: `process_phones` (console printing omitted). -/
def process_phones (ops : ClientOps) (phones : List String) :
    PM (List (String × Entry)) :=
  processLoop (check_phone_number ops) phones []

/-- Source lines 281-297: `process_usernames`. -/
def process_usernames (ops : ClientOps) (usernames : List String) :
    PM (List (String × Entry)) :=
  processLoop (check_username ops) usernames []

/-- The enrichment values `from_user` ends up with, as a pure function
of the client's `get_full_user` response at the history it is issued. -/
def fullInfoOf (ops : ClientOps) (log : List Call) (uid : Int) : String × Int × Bool :=
  match ops.get_full_user log uid with
  | .ok fu => (fu.about.getD "", fu.common_chats_count.getD 0, fu.blocked.getD false)
  | .error _ => ("", 0, false)

/-- The profile `from_user` builds, as a pure function of its inputs. -/
def mkUser (ops : ClientOps) (u : Entity) (p : String) (log : List Call) : TelegramUser :=
  let info := fullInfoOf ops log u.id
  let si := get_enhanced_user_status u.status
  { id := u.id
    username := u.username
    first_name := u.first_name.getD ""
    last_name := u.last_name.getD ""
    phone := p
    premium := u.premium
    verified := u.verified
    fake := u.fake
    bot := u.bot
    last_seen := si.display_text
    last_seen_exact := si.exact_time
    status_type := some si.status_type
    bio := some info.1
    common_chats_count := some info.2.1
    blocked := some info.2.2
    profile_photos := []
    privacy_restricted := si.privacy_restricted }

/-- How one loop iteration records the resolver's answer. -/
def entryOf : Except PyExn (Option TelegramUser) → Entry
  | .ok (some u) => .user u
  | .ok none => .error "No Telegram account found"
  | .error (.valueError m) => .error m
  | .error e => .error ("Unexpected error: " ++ pyStr e)

/-- Python-dict key evolution over a list of inserted keys: an existing
key keeps its slot, a new key is appended. -/
def dictKeysFold : List String → List String → List String
  | ks, [] => ks
  | ks, k :: rest => dictKeysFold (if k ∈ ks then ks else ks ++ [k]) rest

/-- Replace the client's responses to `DeleteContactsRequest` by `f`,
but only at histories that already contain a deletion attempt — i.e.
only the fallback's second (finally-block) deletion attempt is
affected; the first deletion attempt on any path keeps its response. -/
def withLateDeleteOverride (ops : ClientOps)
    (f : List Call → Int → Except PyExn Unit) : ClientOps :=
  { ops with delete_contacts := fun h i =>
      if countDeletes h = 0 then ops.delete_contacts h i else f h i }

/-- A placeholder user entity returned by the platform in the
counterexample scenarios. -/
def entProbe : Entity :=
  { id := 42, username := some "someuser", first_name := none, last_name := none,
    premium := false, verified := false, fake := false, bot := false,
    status := StatusVariant.recently, isUser := true }

/-- A client on which the direct phone lookup raises and the
contact import matches no account. -/
def opsNoUsers : ClientOps :=
  { get_entity_phone := fun _ _ => .error (.rpcError "not found")
    get_entity_username := fun _ _ => .error (.rpcError "not found")
    get_entity_id := fun _ _ => .error (.rpcError "not found")
    import_contacts := fun _ _ => .ok []
    delete_contacts := fun _ _ => .ok ()
    get_full_user := fun _ _ => .error (.rpcError "enrichment failed")
    get_profile_photos := fun _ _ => .error (.rpcError "photos failed")
    download_media := fun _ _ => .ok () }

/-- A client on which the direct phone lookup raises, the import finds
`entProbe`, deletion succeeds, and enrichment/photos fail. -/
def opsFallbackFound : ClientOps :=
  { get_entity_phone := fun _ _ => .error (.rpcError "not found")
    get_entity_username := fun _ _ => .error (.rpcError "not found")
    get_entity_id := fun _ _ => .ok entProbe
    import_contacts := fun _ _ => .ok [entProbe]
    delete_contacts := fun _ _ => .ok ()
    get_full_user := fun _ _ => .error (.rpcError "enrichment failed")
    get_profile_photos := fun _ _ => .error (.rpcError "photos failed")
    download_media := fun _ _ => .ok () }

/-- Same client, except that every deletion attempt fails. -/
def opsDeleteFails : ClientOps :=
  { opsFallbackFound with delete_contacts := fun _ _ => .error (.rpcError "FLOOD_WAIT") }

/-- A resolver that raises only on `"beta12345"`. -/
def resolveProbe : String → PM (Option TelegramUser) := fun s => fun log =>
  if s = "beta12345" then (log, .error (.rpcError "boom")) else (log, .ok none)

/-- The claim's wording of the phone validator: strip all characters
except digits and a *leading* `+` (an interior `+` is removed), prepend
`+` if missing, then require `+` followed by 10-15 digits. -/
def normalizePhone_claim (raw : String) : Except PyExn String :=
  let kept : List Char :=
    match (pyStrip raw).data with
    | '+' :: rest => '+' :: rest.filter Char.isDigit
    | l => l.filter Char.isDigit
  let p :=
    match kept with
    | '+' :: _ => String.mk kept
    | _ => "+" ++ String.mk kept
  if matchesPhoneRegex p then .ok p
  else .error (.valueError ("Invalid phone number format: " ++ p))

/-- All-digits check, written as explicit recursion. -/
def digitsOnly : List Char → Bool
  | [] => true
  | c :: cs => c.isDigit && digitsOnly cs

/-- Keep only digits and plus signs, written as explicit recursion. -/
def keepPhoneChars : List Char → List Char
  | [] => []
  | c :: cs => if c.isDigit || c == '+' then c :: keepPhoneChars cs else keepPhoneChars cs

/-- The amended wording of the phone validator: strip all characters
except digits and `+` signs (every `+` is kept), prepend `+` if
missing, then succeed exactly when what follows the leading `+` is 10
to 15 digits — so a retained interior `+` forces failure; on failure,
the `ValueError` names the normalized string. -/
def normalizePhone_amended (raw : String) : Except PyExn String :=
  let kept := keepPhoneChars (pyStrip raw).data
  let ds := if kept.head? = some '+' then kept.tail else kept
  if digitsOnly ds && decide (10 ≤ ds.length) && decide (ds.length ≤ 15) then
    .ok (String.mk ('+' :: ds))
  else
    .error (.valueError ("Invalid phone number format: " ++ String.mk ('+' :: ds)))

/-- Extract the `phone` field (the spec's `queryIdentifier`) from a
resolver outcome, when it holds a found profile. -/
def phoneOfResult : Except PyExn (Option TelegramUser) → Option String
  | .ok (some u) => some u.phone
  | _ => none

/-- An entity with a platform-side username, found by direct lookup. -/
def entDirect : Entity :=
  { id := 7, username := some "SomeUser", first_name := none, last_name := none,
    premium := false, verified := false, fake := false, bot := false,
    status := StatusVariant.noStatus, isUser := true }

/-- A client on which direct lookups succeed with `entDirect` and
enrichment/photos fail. -/
def opsDirectHit : ClientOps :=
  { get_entity_phone := fun _ _ => .ok entDirect
    get_entity_username := fun _ _ => .ok entDirect
    get_entity_id := fun _ _ => .ok entDirect
    import_contacts := fun _ _ => .ok []
    delete_contacts := fun _ _ => .ok ()
    get_full_user := fun _ _ => .error (.rpcError "enrichment failed")
    get_profile_photos := fun _ _ => .error (.rpcError "photos failed")
    download_media := fun _ _ => .ok () }

/-- The profile the run on `opsDirectHit` produces for the phone
lookup `"15551234567"`. -/
def tuDirect : TelegramUser :=
  { id := 7, username := some "SomeUser", first_name := "", last_name := "",
    phone := "+15551234567", premium := false, verified := false, fake := false,
    bot := false, last_seen := "Status unavailable", last_seen_exact := none,
    status_type := some "unavailable", bio := some "", common_chats_count := some 0,
    blocked := some false, profile_photos := [], privacy_restricted := false }

/-! ### Theorems about the embedded program -/

/-! ### Run lemmas for the embedded resolvers -/

theorem countImports_append (a b : List Call) :
    countImports (a ++ b) = countImports a + countImports b := by
  simp [countImports, List.filter_append]

theorem countDeletes_append (a b : List Call) :
    countDeletes (a ++ b) = countDeletes a + countDeletes b := by
  simp [countDeletes, List.filter_append]

/-- The function `from_user` never raises, issues exactly the `GetFullUserRequest`,
and returns `mkUser`. -/
theorem from_user_run (ops : ClientOps) (u : Entity) (p : String) (log : List Call) :
    TelegramUser.from_user ops u p log =
      (log ++ [.getFullUser u.id], .ok (mkUser ops u p log)) := by
  unfold TelegramUser.from_user fetchFullInfo mkUser fullInfoOf pmTry pmBind oper pmPure
  cases h : ops.get_full_user log u.id <;> simp [h]

theorem mkUser_phone (ops : ClientOps) (u : Entity) (p : String) (log : List Call) :
    (mkUser ops u p log).phone = p := rfl

/-- The photo-download loop only issues `download_media` calls and only
extends the trace. -/
theorem downloadLoop_log (ops : ClientOps) (uid : Int) (idf : String) :
    ∀ (photos : List Unit) (i : Nat) (acc : List String) (log : List Call),
    ∃ ext, (downloadLoop ops uid idf photos i acc log).1 = log ++ ext ∧
      countImports ext = 0 ∧ countDeletes ext = 0 := by
  intro photos
  induction photos with
  | nil =>
      intro i acc log
      exact ⟨[], by simp [downloadLoop, countImports, countDeletes]⟩
  | cons p rest ih =>
      intro i acc log
      unfold downloadLoop
      cases h : ops.download_media log (photoPath uid idf i) with
      | ok _ =>
          obtain ⟨ext, h1, h2, h3⟩ :=
            ih (i + 1) (acc ++ [photoPath uid idf i])
              (log ++ [.downloadMedia (photoPath uid idf i)])
          refine ⟨Call.downloadMedia (photoPath uid idf i) :: ext, ?_, ?_, ?_⟩
          · simp [h, h1]
          · simpa [countImports, List.filter_cons, Call.isImport] using h2
          · simpa [countDeletes, List.filter_cons, Call.isDelete] using h3
      | error e =>
          refine ⟨[Call.downloadMedia (photoPath uid idf i)], by simp [h], ?_, ?_⟩
          · simp [countImports, List.filter_cons, Call.isImport]
          · simp [countDeletes, List.filter_cons, Call.isDelete]

/-- The function `download_all_profile_photos` never raises, only appends
non-import, non-delete calls to the trace, and changes nothing but
`profile_photos` on the user record (in particular the `phone` field
survives). -/
theorem photos_run (ops : ClientOps) (u : Entity) (ud : TelegramUser) (log : List Call) :
    ∃ ext tu', download_all_profile_photos ops u ud log = (log ++ ext, .ok tu') ∧
      countImports ext = 0 ∧ countDeletes ext = 0 ∧ tu'.phone = ud.phone := by
  unfold download_all_profile_photos
  cases h : ops.get_profile_photos log u.id with
  | error e =>
      exact ⟨[.getProfilePhotos u.id], ud, by simp [h],
        by simp [countImports, List.filter_cons, Call.isImport],
        by simp [countDeletes, List.filter_cons, Call.isDelete], rfl⟩
  | ok photos =>
      cases hp : photos.isEmpty with
      | true =>
          exact ⟨[.getProfilePhotos u.id], ud, by simp [h, hp],
            by simp [countImports, List.filter_cons, Call.isImport],
            by simp [countDeletes, List.filter_cons, Call.isDelete], rfl⟩
      | false =>
          obtain ⟨ext, h1, h2, h3⟩ :=
            downloadLoop_log ops u.id
              (if ud.phone = "" then pyOptStr ud.username else ud.phone) photos 0 []
              (log ++ [.getProfilePhotos u.id])
          refine ⟨Call.getProfilePhotos u.id :: ext,
            { ud with profile_photos :=
                (downloadLoop ops u.id
                  (if ud.phone = "" then pyOptStr ud.username else ud.phone) photos 0 []
                  (log ++ [.getProfilePhotos u.id])).2 }, ?_, ?_, ?_, rfl⟩
          · simp [h, hp, h1]
          · simpa [countImports, List.filter_cons, Call.isImport] using h2
          · simpa [countDeletes, List.filter_cons, Call.isDelete] using h3

/-- A `try/except` whose handler returns a constant never raises. -/
theorem pmTry_const_total {α : Type} (m : PM α) (a : α) (log : List Call) :
    ∃ l r, pmTry m (fun _ => pmPure a) log = (l, .ok r) := by
  unfold pmTry pmPure
  rcases h : m log with ⟨l, res⟩
  cases res with
  | ok x => exact ⟨l, x, by simp [h]⟩
  | error e => exact ⟨l, a, by simp [h]⟩

/-- The resolver `check_phone_number` never raises (the outer `except Exception`
swallows everything, including the validator's `ValueError`). -/
theorem check_phone_number_total (ops : ClientOps) (phone : String) (log : List Call) :
    ∃ l r, check_phone_number ops phone log = (l, .ok r) := by
  unfold check_phone_number
  exact pmTry_const_total _ none log

/-- The resolver `check_username` never raises. -/
theorem check_username_total (ops : ClientOps) (username : String) (log : List Call) :
    ∃ l r, check_username ops username log = (l, .ok r) := by
  unfold check_username
  exact pmTry_const_total _ none log

/-- A failed validation short-circuits `check_phone_number`: no client
call is issued and the caller sees `None`. -/
theorem check_phone_number_invalid (ops : ClientOps) (phone : String) (e : PyExn)
    (h : validate_phone_number phone = .error e) (log : List Call) :
    check_phone_number ops phone log = (log, .ok none) := by
  unfold check_phone_number pmTry pmBind liftE pmPure
  simp [h]

theorem batchStep_blank (resolve : String → PM (Option TelegramUser))
    (results : List (String × Entry)) (raw : String) (log : List Call)
    (h : (pyStrip raw) = "") :
    batchStep resolve results raw log = (log, .ok results) := by
  simp [batchStep, h, pmPure]

/-- A non-blank identifier is processed by running the resolver on the
stripped string and recording `entryOf` its outcome under the stripped
key; the iteration itself never raises. -/
theorem batchStep_run (resolve : String → PM (Option TelegramUser))
    (results : List (String × Entry)) (raw : String) (log : List Call)
    (h : (pyStrip raw) ≠ "") :
    batchStep resolve results raw log =
      ((resolve (pyStrip raw) log).1,
       .ok (dictInsert results (pyStrip raw) (entryOf (resolve (pyStrip raw) log).2))) := by
  unfold batchStep pmTry pmBind pmPure entryOf
  rw [if_neg h]
  rcases hr : resolve (pyStrip raw) log with ⟨l, res⟩
  cases res with
  | ok a => cases a <;> simp [hr]
  | error e => cases e <;> simp [hr, pyStr]

/-! ### Dictionary and batch-loop lemmas -/

theorem keysOf_dictInsert (m : List (String × Entry)) (k : String) (v : Entry) :
    keysOf (dictInsert m k v) =
      if k ∈ keysOf m then keysOf m else keysOf m ++ [k] := by
  unfold dictInsert keysOf
  by_cases h : m.any (fun p => p.1 = k)
  · rw [if_pos h]
    have hk : k ∈ m.map Prod.fst := by
      rcases List.any_eq_true.1 h with ⟨p, hp, hpk⟩
      exact List.mem_map.2 ⟨p, hp, of_decide_eq_true hpk⟩
    rw [if_pos hk, List.map_map]
    refine List.map_congr_left ?_
    intro p _
    by_cases hpk : p.1 = k
    · simp [hpk]
    · simp [hpk]
  · rw [if_neg h]
    have hk : k ∉ m.map Prod.fst := by
      intro hmem
      rcases List.mem_map.1 hmem with ⟨p, hp, hpk⟩
      exact h (List.any_eq_true.2 ⟨p, hp, decide_eq_true hpk⟩)
    rw [if_neg hk, List.map_append]
    rfl

theorem mem_dictInsert (m : List (String × Entry)) (k : String) (v : Entry) :
    ∀ e ∈ dictInsert m k v, e ∈ m ∨ e.2 = v := by
  unfold dictInsert
  by_cases h : m.any (fun p => p.1 = k)
  · rw [if_pos h]
    intro e he
    rcases List.mem_map.1 he with ⟨p, hp, hpe⟩
    by_cases hpk : p.1 = k
    · right; rw [← hpe]; simp [hpk]
    · left; rw [← hpe]; simpa [hpk] using hp
  · rw [if_neg h]
    intro e he
    rcases List.mem_append.1 he with h1 | h1
    · exact Or.inl h1
    · right; rw [List.mem_singleton.1 h1]

/-- The batch loop never raises, and its result's keys are exactly the
dict-fold of the stripped non-blank identifiers over the keys of the
accumulator. -/
theorem processLoop_keys (resolve : String → PM (Option TelegramUser)) :
    ∀ (ids : List String) (R : List (String × Entry)) (log : List Call),
    ∃ log' m, processLoop resolve ids R log = (log', .ok m) ∧
      keysOf m = dictKeysFold (keysOf R)
        ((ids.map pyStrip).filter (fun s => s ≠ "")) := by
  intro ids
  induction ids with
  | nil =>
      intro R log
      exact ⟨log, R, rfl, by simp [dictKeysFold]⟩
  | cons x xs ih =>
      intro R log
      by_cases hx : (pyStrip x) = ""
      · obtain ⟨log', m, h1, h2⟩ := ih R log
        refine ⟨log', m, ?_, ?_⟩
        · show pmBind (batchStep resolve R x) _ log = _
          rw [pmBind, batchStep_blank resolve R x log hx]
          exact h1
        · simpa [hx] using h2
      · obtain ⟨log', m, h1, h2⟩ :=
          ih (dictInsert R (pyStrip x) (entryOf (resolve (pyStrip x) log).2)) (resolve (pyStrip x) log).1
        refine ⟨log', m, ?_, ?_⟩
        · show pmBind (batchStep resolve R x) _ log = _
          rw [pmBind, batchStep_run resolve R x log hx]
          exact h1
        · conv_rhs => rw [List.map_cons, List.filter_cons, if_pos (decide_eq_true hx)]
          rw [h2, keysOf_dictInsert]
          rfl

/-- The batch loop preserves the shape of recorded entries: with a
resolver that never raises, every entry of the final mapping either was
already in the accumulator, or is a resolved user, or is the
"No Telegram account found" record — the two exception branches of the
loop body never fire. -/
theorem processLoop_ok_entries (resolve : String → PM (Option TelegramUser))
    (hres : ∀ s log, ∃ l r, resolve s log = (l, .ok r)) :
    ∀ (ids : List String) (R : List (String × Entry)) (log : List Call),
    ∃ log' m, processLoop resolve ids R log = (log', .ok m) ∧
      ∀ e ∈ m, e ∈ R ∨ (∃ u, e.2 = Entry.user u) ∨
        e.2 = Entry.error "No Telegram account found" := by
  intro ids
  induction ids with
  | nil =>
      intro R log
      exact ⟨log, R, rfl, fun e he => Or.inl he⟩
  | cons x xs ih =>
      intro R log
      by_cases hx : (pyStrip x) = ""
      · obtain ⟨log', m, h1, h2⟩ := ih R log
        refine ⟨log', m, ?_, h2⟩
        show pmBind (batchStep resolve R x) _ log = _
        rw [pmBind, batchStep_blank resolve R x log hx]
        exact h1
      · obtain ⟨l, r, hr⟩ := hres (pyStrip x) log
        obtain ⟨log', m, h1, h2⟩ :=
          ih (dictInsert R (pyStrip x) (entryOf (resolve (pyStrip x) log).2)) (resolve (pyStrip x) log).1
        refine ⟨log', m, ?_, ?_⟩
        · show pmBind (batchStep resolve R x) _ log = _
          rw [pmBind, batchStep_run resolve R x log hx]
          exact h1
        · intro e he
          rcases h2 e he with h3 | h3 | h3
          · rcases mem_dictInsert _ _ _ e h3 with h4 | h4
            · exact Or.inl h4
            · rw [hr] at h4
              cases r with
              | some u => exact Or.inr (Or.inl ⟨u, by simpa [entryOf] using h4⟩)
              | none => exact Or.inr (Or.inr (by simpa [entryOf] using h4))
          · exact Or.inr (Or.inl h3)
          · exact Or.inr (Or.inr h3)

/-- If the re-resolution of the imported user fails, the body of the
`try/finally` aborts, the `finally` still issues one deletion attempt
(whose own outcome is swallowed), and the exception escapes. -/
theorem resolveFromContact_gid_err (ops : ClientOps) (p : String) (u : Entity)
    (log3 : List Call) (e1 : PyExn)
    (h : ops.get_entity_id log3 u.id = .error e1) :
    resolveFromContact ops p u log3 =
      (log3 ++ [.getEntityId u.id, .deleteContacts u.id], .error e1) := by
  unfold resolveFromContact pmFinally pmTry pmBind oper pmPure
  simp only [h]
  cases hd : ops.delete_contacts (log3 ++ [Call.getEntityId u.id]) u.id <;> simp [hd]

/-- If the inline (unprotected) deletion fails, the body aborts after
it, the `finally` issues a second deletion attempt, and the inline
deletion's exception escapes the `try/finally`. -/
theorem resolveFromContact_del_err (ops : ClientOps) (p : String) (u : Entity)
    (log3 : List Call) (fu : Entity) (e2 : PyExn)
    (h1 : ops.get_entity_id log3 u.id = .ok fu)
    (h2 : ops.delete_contacts (log3 ++ [.getEntityId u.id]) u.id = .error e2) :
    resolveFromContact ops p u log3 =
      (log3 ++ [.getEntityId u.id, .deleteContacts u.id, .deleteContacts u.id],
       .error e2) := by
  unfold resolveFromContact pmFinally pmTry pmBind oper pmPure
  simp only [h1, h2]
  cases hd : ops.delete_contacts
      (log3 ++ [Call.getEntityId u.id, Call.deleteContacts u.id]) u.id <;> simp [h2, hd]

/-- If re-resolution and the inline deletion both succeed, the body
builds and enriches the profile (issuing no import and no delete
beyond the two deletion attempts), the `finally` issues the second
deletion attempt, and the found profile — carrying the supplied phone —
is returned. -/
theorem resolveFromContact_ok (ops : ClientOps) (p : String) (u : Entity)
    (log3 : List Call) (fu : Entity)
    (h1 : ops.get_entity_id log3 u.id = .ok fu)
    (h2 : ops.delete_contacts (log3 ++ [.getEntityId u.id]) u.id = .ok ()) :
    ∃ ext tu, resolveFromContact ops p u log3 =
      (log3 ++ [.getEntityId u.id, .deleteContacts u.id, .getFullUser fu.id] ++
        ext ++ [.deleteContacts u.id], .ok (some tu)) ∧
      countImports ext = 0 ∧ countDeletes ext = 0 ∧ tu.phone = p := by
  obtain ⟨ext, tu', hph, hpi, hpd, hphone⟩ :=
    photos_run ops fu (mkUser ops fu p (log3 ++ [.getEntityId u.id, .deleteContacts u.id]))
      (log3 ++ [.getEntityId u.id, .deleteContacts u.id, .getFullUser fu.id])
  refine ⟨ext, tu', ?_, hpi, hpd, by rw [hphone, mkUser_phone]⟩
  unfold resolveFromContact pmFinally pmTry pmBind oper pmPure
  simp only [h1, h2, from_user_run, List.append_assoc, List.cons_append,
    List.nil_append, List.singleton_append, hph]
  cases hd : ops.delete_contacts
      (log3 ++ Call.getEntityId u.id :: Call.deleteContacts u.id ::
        Call.getFullUser fu.id :: ext) u.id <;>
    simp [hd]

/-- When validation succeeds and the direct lookup raises, the whole
call reduces to the import fallback wrapped in the outer
`except Exception` (which converts an escaping exception to `None`). -/
theorem check_phone_to_fallback (ops : ClientOps) (phone0 p : String) (log : List Call)
    (hv : validate_phone_number phone0 = .ok p) (e0 : PyExn)
    (hgep : ops.get_entity_phone log p = .error e0) :
    check_phone_number ops phone0 log =
      pmTry (contactFallback ops p) (fun _ => pmPure none)
        (log ++ [.getEntityPhone p]) := by
  unfold check_phone_number directPhoneLookup pmTry pmBind liftE oper pmPure
  simp only [hv, hgep]

/-- When validation succeeds and the direct lookup returns an entity,
the call returns a found profile carrying the validated phone, and the
trace contains no import and no delete. -/
theorem check_phone_direct_ok (ops : ClientOps) (phone0 p : String) (u : Entity)
    (log : List Call) (hv : validate_phone_number phone0 = .ok p)
    (hgep : ops.get_entity_phone log p = .ok u) :
    ∃ ext tu, check_phone_number ops phone0 log =
      (log ++ [.getEntityPhone p, .getFullUser u.id] ++ ext, .ok (some tu)) ∧
      countImports ext = 0 ∧ countDeletes ext = 0 ∧ tu.phone = p := by
  obtain ⟨ext, tu', hph, hpi, hpd, hphone⟩ :=
    photos_run ops u (mkUser ops u p (log ++ [.getEntityPhone p]))
      (log ++ [.getEntityPhone p, .getFullUser u.id])
  refine ⟨ext, tu', ?_, hpi, hpd, by rw [hphone, mkUser_phone]⟩
  unfold check_phone_number directPhoneLookup pmTry pmBind liftE oper pmPure
  simp only [hv, hgep, from_user_run, List.append_assoc, List.cons_append,
    List.nil_append, List.singleton_append, hph]

/-- Fallback with an empty import result: the call returns `None`
immediately — one import, but no deletion attempt at all. -/
theorem check_phone_fallback_notfound (ops : ClientOps) (phone0 p : String)
    (hv : validate_phone_number phone0 = .ok p)
    (hdir : ∀ h, ∃ e, ops.get_entity_phone h p = .error e)
    (himp0 : ∀ h, ops.import_contacts h p = .ok []) :
    check_phone_number ops phone0 [] =
      ([.getEntityPhone p, .importContacts p], .ok none) := by
  obtain ⟨e0, he0⟩ := hdir []
  rw [check_phone_to_fallback ops phone0 p [] hv e0 he0]
  unfold pmTry contactFallback pmBind oper pmPure
  simp [himp0 [Call.getEntityPhone p]]

/-- When the direct lookup raises and the import returns a matching
user, the import fallback reduces to `resolveFromContact` on the
two-call history. -/
theorem contactFallback_found (ops : ClientOps) (p : String) (u : Entity)
    (rest : List Entity)
    (himp2 : ops.import_contacts [Call.getEntityPhone p] p = .ok (u :: rest)) :
    contactFallback ops p [Call.getEntityPhone p] =
      resolveFromContact ops p u [Call.getEntityPhone p, Call.importContacts p] := by
  unfold contactFallback pmBind oper
  simp [himp2]

/-- The fallback scenario of §4.3: direct lookup fails, the import
returns a matching user.  However the rest of the call behaves, the
returned trace holds exactly one import and at least one deletion
attempt, and the call itself returns normally. -/
theorem fallback_scenario (ops : ClientOps) (phone0 p : String) (u : Entity)
    (rest : List Entity)
    (hv : validate_phone_number phone0 = .ok p)
    (hdir : ∀ h, ∃ e, ops.get_entity_phone h p = .error e)
    (himp : ∀ h, ops.import_contacts h p = .ok (u :: rest)) :
    countImports (check_phone_number ops phone0 []).1 = 1 ∧
    1 ≤ countDeletes (check_phone_number ops phone0 []).1 ∧
    ∃ r, (check_phone_number ops phone0 []).2 = .ok r := by
  obtain ⟨e0, he0⟩ := hdir []
  rw [check_phone_to_fallback ops phone0 p [] hv e0 he0]
  unfold pmTry
  rw [show ([] : List Call) ++ [Call.getEntityPhone p] = [Call.getEntityPhone p] by simp]
  rw [contactFallback_found ops p u rest (himp [Call.getEntityPhone p])]
  cases hgid : ops.get_entity_id [Call.getEntityPhone p, Call.importContacts p] u.id with
  | error e1 =>
      rw [resolveFromContact_gid_err ops p u _ e1 hgid]
      refine ⟨?_, ?_, none, ?_⟩ <;>
        simp [pmPure, countImports, countDeletes, Call.isImport, Call.isDelete]
  | ok fu =>
      cases hdel : ops.delete_contacts
          [Call.getEntityPhone p, Call.importContacts p, Call.getEntityId u.id] u.id with
      | error e2 =>
          rw [resolveFromContact_del_err ops p u _ fu e2 hgid hdel]
          refine ⟨?_, ?_, none, ?_⟩ <;>
            simp [pmPure, countImports, countDeletes, Call.isImport, Call.isDelete]
      | ok un =>
          obtain ⟨ext, tu, heq, hi, hd, hph⟩ :=
            resolveFromContact_ok ops p u [Call.getEntityPhone p, Call.importContacts p]
              fu hgid hdel
          rw [heq]
          refine ⟨?_, ?_, some tu, ?_⟩
          · simp only [countImports_append, hi]
            simp [countImports, Call.isImport]
          · simp only [countDeletes_append, hd]
            simp [countDeletes, Call.isDelete]
          · simp

theorem fullInfoOf_override (ops : ClientOps) (f) (log : List Call) (uid : Int) :
    fullInfoOf (withLateDeleteOverride ops f) log uid = fullInfoOf ops log uid := rfl

theorem mkUser_override (ops : ClientOps) (f) (u : Entity) (p : String) (log : List Call) :
    mkUser (withLateDeleteOverride ops f) u p log = mkUser ops u p log := rfl

theorem from_user_override (ops : ClientOps) (f) (u : Entity) (p : String) (log : List Call) :
    TelegramUser.from_user (withLateDeleteOverride ops f) u p log =
      TelegramUser.from_user ops u p log := by
  rw [from_user_run, from_user_run, mkUser_override]

theorem downloadLoop_override (ops : ClientOps) (f) (uid : Int) (idf : String) :
    ∀ (photos : List Unit) (i : Nat) (acc : List String) (log : List Call),
    downloadLoop (withLateDeleteOverride ops f) uid idf photos i acc log =
      downloadLoop ops uid idf photos i acc log := by
  intro photos
  induction photos with
  | nil => intro i acc log; rfl
  | cons q rest ih =>
      intro i acc log
      unfold downloadLoop
      have hdm : (withLateDeleteOverride ops f).download_media = ops.download_media := rfl
      rw [hdm]
      cases hd : ops.download_media log (photoPath uid idf i) <;> simp [hd, ih]

theorem photos_override (ops : ClientOps) (f) (u : Entity) (ud : TelegramUser)
    (log : List Call) :
    download_all_profile_photos (withLateDeleteOverride ops f) u ud log =
      download_all_profile_photos ops u ud log := by
  unfold download_all_profile_photos
  have hpp : (withLateDeleteOverride ops f).get_profile_photos = ops.get_profile_photos := rfl
  rw [hpp]
  cases h : ops.get_profile_photos log u.id <;> simp [h, downloadLoop_override]

theorem directPhoneLookup_override (ops : ClientOps) (f) (p : String) (log : List Call) :
    directPhoneLookup (withLateDeleteOverride ops f) p log =
      directPhoneLookup ops p log := by
  unfold directPhoneLookup pmBind oper pmPure
  have hgep : (withLateDeleteOverride ops f).get_entity_phone = ops.get_entity_phone := rfl
  rw [hgep]
  cases h : ops.get_entity_phone log p with
  | error e => simp [h]
  | ok u => simp [h, from_user_override, photos_override]

/-- On a history with no prior deletion attempt, the whole
`try/finally` around the imported user behaves identically whether or
not the second (finally-block) deletion attempt's responses are
overridden: that attempt's outcome is swallowed either way. -/
theorem resolveFromContact_override (ops : ClientOps) (f) (p : String) (u : Entity)
    (log3 : List Call) (hno : countDeletes log3 = 0) :
    resolveFromContact (withLateDeleteOverride ops f) p u log3 =
      resolveFromContact ops p u log3 := by
  have hgid0 : (withLateDeleteOverride ops f).get_entity_id = ops.get_entity_id := rfl
  have hdel0 : ∀ h i, countDeletes h = 0 →
      (withLateDeleteOverride ops f).delete_contacts h i = ops.delete_contacts h i := by
    intro h i hh
    show (if countDeletes h = 0 then ops.delete_contacts h i else f h i) = _
    rw [if_pos hh]
  have hc1 : countDeletes (log3 ++ [Call.getEntityId u.id]) = 0 := by
    rw [countDeletes_append, hno]
    simp [countDeletes, Call.isDelete]
  unfold resolveFromContact pmFinally pmTry pmBind oper pmPure
  rw [hgid0]
  cases hgid : ops.get_entity_id log3 u.id with
  | error e1 =>
      simp only [hgid]
      rw [hdel0 _ _ hc1]
  | ok fu =>
      simp only [hgid]
      rw [hdel0 _ _ hc1]
      cases hd : ops.delete_contacts (log3 ++ [Call.getEntityId u.id]) u.id with
      | error e2 =>
          simp only [hd, List.append_assoc, List.cons_append, List.singleton_append,
            List.nil_append]
          cases hd2o : ops.delete_contacts
              (log3 ++ [Call.getEntityId u.id, Call.deleteContacts u.id]) u.id <;>
            cases hd2f : (withLateDeleteOverride ops f).delete_contacts
                (log3 ++ [Call.getEntityId u.id, Call.deleteContacts u.id]) u.id <;>
              simp [hd2o, hd2f]
      | ok un =>
          obtain ⟨ext, tu', hph, hpi, hpd, hphn⟩ :=
            photos_run ops fu
              (mkUser ops fu p (log3 ++ [Call.getEntityId u.id, Call.deleteContacts u.id]))
              (log3 ++ [Call.getEntityId u.id, Call.deleteContacts u.id,
                Call.getFullUser fu.id])
          simp only [hd, from_user_override, photos_override, from_user_run,
            mkUser_override, List.append_assoc, List.cons_append, List.singleton_append,
            List.nil_append, hph]
          cases hd2o : ops.delete_contacts
              (log3 ++ Call.getEntityId u.id :: Call.deleteContacts u.id ::
                Call.getFullUser fu.id :: ext) u.id <;>
            cases hd2f : (withLateDeleteOverride ops f).delete_contacts
                (log3 ++ Call.getEntityId u.id :: Call.deleteContacts u.id ::
                  Call.getFullUser fu.id :: ext) u.id <;>
              simp [hd2o, hd2f]

/-- A successful direct lookup always produces a found profile (the
profile build and photo steps cannot raise) and issues no import and
no delete. -/
theorem directPhoneLookup_ok (ops : ClientOps) (p : String) (u : Entity)
    (log : List Call) (hgep : ops.get_entity_phone log p = .ok u) :
    ∃ ext tu, directPhoneLookup ops p log =
      (log ++ [.getEntityPhone p, .getFullUser u.id] ++ ext, .ok (some tu)) ∧
      countImports ext = 0 ∧ countDeletes ext = 0 ∧ tu.phone = p := by
  obtain ⟨ext, tu', hph, hpi, hpd, hphone⟩ :=
    photos_run ops u (mkUser ops u p (log ++ [.getEntityPhone p]))
      (log ++ [.getEntityPhone p, .getFullUser u.id])
  refine ⟨ext, tu', ?_, hpi, hpd, by rw [hphone, mkUser_phone]⟩
  unfold directPhoneLookup pmBind oper pmPure
  simp only [hgep, from_user_run, List.append_assoc, List.cons_append,
    List.nil_append, List.singleton_append, hph]

/-- Whole-call invariance: overriding the client's responses to every
deletion attempt that is not the first one of the call never changes
what `check_phone_number` returns (nor even its trace). -/
theorem check_phone_override (ops : ClientOps) (f) (phone0 : String) :
    check_phone_number (withLateDeleteOverride ops f) phone0 [] =
      check_phone_number ops phone0 [] := by
  cases hval : validate_phone_number phone0 with
  | error e =>
      rw [check_phone_number_invalid _ _ e hval, check_phone_number_invalid _ _ e hval]
  | ok p =>
      cases hgep : ops.get_entity_phone [] p with
      | ok u =>
          unfold check_phone_number pmTry pmBind liftE pmPure
          simp only [hval, directPhoneLookup_override]
          obtain ⟨ext, tu, hdr, _, _, _⟩ := directPhoneLookup_ok ops p u [] hgep
          simp [hdr]
      | error e0 =>
          have hgep' : (withLateDeleteOverride ops f).get_entity_phone [] p = .error e0 := hgep
          rw [check_phone_to_fallback ops phone0 p [] hval e0 hgep,
            check_phone_to_fallback (withLateDeleteOverride ops f) phone0 p [] hval e0 hgep']
          unfold pmTry contactFallback pmBind oper pmPure
          have himp0 : (withLateDeleteOverride ops f).import_contacts = ops.import_contacts := rfl
          rw [himp0]
          cases hu : ops.import_contacts [Call.getEntityPhone p] p with
          | error e => simp [List.nil_append, hu]
          | ok users =>
              cases users with
              | nil => simp [List.nil_append, hu]
              | cons u rest =>
                  simp only [List.nil_append, hu]
                  rw [resolveFromContact_override ops f p u _
                    (by simp [countDeletes, Call.isDelete])]

/-- If, in the fallback, re-resolution succeeds but the first deletion
attempt fails, the whole call returns `None` — the found user is
discarded. -/
theorem fallback_first_delete_err (ops : ClientOps) (phone0 p : String) (u : Entity)
    (rest : List Entity) (fu : Entity)
    (hv : validate_phone_number phone0 = .ok p)
    (hdir : ∀ h, ∃ e, ops.get_entity_phone h p = .error e)
    (himp : ∀ h, ops.import_contacts h p = .ok (u :: rest))
    (hgid : ∀ h, ops.get_entity_id h u.id = .ok fu)
    (hdel1 : ∀ h, countDeletes h = 0 → ∃ e, ops.delete_contacts h u.id = .error e) :
    check_phone_number ops phone0 [] =
      ([.getEntityPhone p, .importContacts p, .getEntityId u.id,
        .deleteContacts u.id, .deleteContacts u.id], .ok none) := by
  obtain ⟨e0, he0⟩ := hdir []
  obtain ⟨e2, he2⟩ := hdel1
    [Call.getEntityPhone p, Call.importContacts p, Call.getEntityId u.id]
    (by simp [countDeletes, Call.isDelete])
  rw [check_phone_to_fallback ops phone0 p [] hv e0 he0]
  unfold pmTry
  rw [show ([] : List Call) ++ [Call.getEntityPhone p] = [Call.getEntityPhone p] by simp]
  rw [contactFallback_found ops p u rest (himp _)]
  rw [resolveFromContact_del_err ops p u _ fu e2 (hgid _) he2]
  rfl

/-- C1, counterexample.  The claim asserts a deletion attempt on every
outcome of the import fallback, including not-found ("import returns no
users").  On a client where the direct lookup raises and
`ImportContactsRequest` returns no users, the call returns `None` after
exactly the lookup and the import — `if not result.users: return None`
(source line 227) exits before the `try/finally`, so no
`DeleteContactsRequest` is ever issued. -/
theorem C1_counterexample :
    check_phone_number opsNoUsers "+15551234567" [] =
      ([Call.getEntityPhone "+15551234567", Call.importContacts "+15551234567"],
        .ok none) ∧
    countDeletes (check_phone_number opsNoUsers "+15551234567" []).1 = 0 := by
  exact ⟨by decide, by decide⟩

/-- C1, amended: when the import fallback returns a matching user, a
deletion attempt is issued before the call returns on every outcome
(found or exceptional); but when the import returns no users, the call
returns the not-found outcome with no deletion attempt at all. -/
theorem C1_amended :
    (∀ (ops : ClientOps) (phone0 p : String),
      validate_phone_number phone0 = .ok p →
      (∀ h, ∃ e, ops.get_entity_phone h p = .error e) →
      (∀ h, ops.import_contacts h p = .ok []) →
      check_phone_number ops phone0 [] =
        ([.getEntityPhone p, .importContacts p], .ok none)) ∧
    (∀ (ops : ClientOps) (phone0 p : String) (u : Entity) (rest : List Entity),
      validate_phone_number phone0 = .ok p →
      (∀ h, ∃ e, ops.get_entity_phone h p = .error e) →
      (∀ h, ops.import_contacts h p = .ok (u :: rest)) →
      1 ≤ countDeletes (check_phone_number ops phone0 []).1 ∧
      ∃ r, (check_phone_number ops phone0 []).2 = .ok r) := by
  refine ⟨fun ops phone0 p hv hdir himp =>
    check_phone_fallback_notfound ops phone0 p hv hdir himp,
    fun ops phone0 p u rest hv hdir himp => ?_⟩
  obtain ⟨_, h2, h3⟩ := fallback_scenario ops phone0 p u rest hv hdir himp
  exact ⟨h2, h3⟩

/-- Witness for `C1_amended` at two concrete clients. -/
theorem C1_witness :
    check_phone_number opsNoUsers "+15551234567" [] =
      ([.getEntityPhone "+15551234567", .importContacts "+15551234567"], .ok none) ∧
    1 ≤ countDeletes (check_phone_number opsFallbackFound "+15551234567" []).1 := by
  constructor
  · exact C1_amended.1 opsNoUsers "+15551234567" "+15551234567" (by decide)
      (fun h => ⟨.rpcError "not found", rfl⟩) (fun h => rfl)
  · exact (C1_amended.2 opsFallbackFound "+15551234567" "+15551234567" entProbe []
      (by decide) (fun h => ⟨.rpcError "not found", rfl⟩) (fun h => rfl)).1

/-- C5: in every phone lookup where the direct lookup raises and
the import fallback returns a matching entity, the returned trace holds
exactly one `ImportContactsRequest` and at least one
`DeleteContactsRequest`, for every behaviour of the remaining client
operations — in particular also when re-resolution, the deletions, the
enrichment fetch or the photo download subsequently fail. -/
theorem C5_fallback_one_import_deletes (ops : ClientOps) (phone0 p : String)
    (u : Entity) (rest : List Entity)
    (hv : validate_phone_number phone0 = .ok p)
    (hdir : ∀ h, ∃ e, ops.get_entity_phone h p = .error e)
    (himp : ∀ h, ops.import_contacts h p = .ok (u :: rest)) :
    countImports (check_phone_number ops phone0 []).1 = 1 ∧
    1 ≤ countDeletes (check_phone_number ops phone0 []).1 := by
  obtain ⟨h1, h2, _⟩ := fallback_scenario ops phone0 p u rest hv hdir himp
  exact ⟨h1, h2⟩

/-- Witness for `C5_fallback_one_import_deletes` on a client whose
enrichment fetch fails. -/
theorem C5_witness :
    countImports (check_phone_number opsFallbackFound "+15551234567" []).1 = 1 ∧
    1 ≤ countDeletes (check_phone_number opsFallbackFound "+15551234567" []).1 :=
  C5_fallback_one_import_deletes opsFallbackFound "+15551234567" "+15551234567"
    entProbe [] (by decide) (fun h => ⟨.rpcError "not found", rfl⟩) (fun h => rfl)

/-- C2, counterexample.  `opsDeleteFails` differs from
`opsFallbackFound` only in `delete_contacts` (every deletion attempt
fails).  The claim says a deletion failure never changes the lookup's
outcome; but the inline deletion (source line 232) is unprotected, so
with failing deletes the call returns `None` while with succeeding
deletes it returns the found user. -/
theorem C2_counterexample :
    (check_phone_number opsDeleteFails "+15551234567" []).2 = .ok none ∧
    (check_phone_number opsFallbackFound "+15551234567" []).2 ≠ .ok none ∧
    (check_phone_number opsFallbackFound "+15551234567" []).2 ≠
      (check_phone_number opsDeleteFails "+15551234567" []).2 := by
  refine ⟨by decide, ?_, ?_⟩ <;> decide

/-- C2, amended: the outcome of any deletion attempt other than the
first one of the call (i.e. the finally-block attempt, source 237-240)
is swallowed and never changes the result or even the trace; but a
failure of the first deletion attempt — the unprotected inline one
(source line 232) when re-resolution succeeded — aborts the resolution
and the call returns `None`. -/
theorem C2_amended :
    (∀ (ops : ClientOps) (f) (phone0 : String),
      check_phone_number (withLateDeleteOverride ops f) phone0 [] =
        check_phone_number ops phone0 []) ∧
    (∀ (ops : ClientOps) (phone0 p : String) (u fu : Entity) (rest : List Entity),
      validate_phone_number phone0 = .ok p →
      (∀ h, ∃ e, ops.get_entity_phone h p = .error e) →
      (∀ h, ops.import_contacts h p = .ok (u :: rest)) →
      (∀ h, ops.get_entity_id h u.id = .ok fu) →
      (∀ h, countDeletes h = 0 → ∃ e, ops.delete_contacts h u.id = .error e) →
      (check_phone_number ops phone0 []).2 = .ok none) := by
  refine ⟨check_phone_override, fun ops phone0 p u fu rest hv hdir himp hgid hdel => ?_⟩
  rw [fallback_first_delete_err ops phone0 p u rest fu hv hdir himp hgid hdel]

/-- Witness for `C2_amended` at concrete clients. -/
theorem C2_witness :
    check_phone_number
        (withLateDeleteOverride opsFallbackFound (fun _ _ => .error (.rpcError "late")))
        "+15551234567" [] =
      check_phone_number opsFallbackFound "+15551234567" [] ∧
    (check_phone_number opsDeleteFails "+15551234567" []).2 = .ok none := by
  constructor
  · exact C2_amended.1 opsFallbackFound (fun _ _ => .error (.rpcError "late")) "+15551234567"
  · exact C2_amended.2 opsDeleteFails "+15551234567" "+15551234567" entProbe entProbe []
      (by decide) (fun h => ⟨.rpcError "not found", rfl⟩) (fun h => rfl) (fun h => rfl)
      (fun h _ => ⟨.rpcError "FLOOD_WAIT", rfl⟩)

/-- C4: the status classifier is a total function (it cannot throw);
every variant of the presence table — including `None` and
unrecognized variants — maps to exactly the specified
category / privacyRestricted / exactTimestamp combination; and the §3
implication invariants hold for all inputs: privacy restriction forces
a null exact timestamp, `online` forces a null timestamp and no
privacy flag, and `offline` forces a non-null timestamp. -/
theorem C4_status_classifier :
    get_enhanced_user_status .online =
      { display_text := "Currently online", exact_time := none,
        status_type := "online", privacy_restricted := false } ∧
    (∀ t, get_enhanced_user_status (.offline t) =
      { display_text := "Last seen: " ++ t, exact_time := some t,
        status_type := "offline", privacy_restricted := false }) ∧
    get_enhanced_user_status .recently =
      { display_text := "Last seen recently (1 second - 3 days ago)", exact_time := none,
        status_type := "recently", privacy_restricted := true } ∧
    get_enhanced_user_status .lastWeek =
      { display_text := "Last seen within a week (3-7 days ago)", exact_time := none,
        status_type := "last_week", privacy_restricted := true } ∧
    get_enhanced_user_status .lastMonth =
      { display_text := "Last seen within a month (7-30 days ago)", exact_time := none,
        status_type := "last_month", privacy_restricted := true } ∧
    get_enhanced_user_status .noStatus =
      { display_text := "Status unavailable", exact_time := none,
        status_type := "unavailable", privacy_restricted := false } ∧
    (∀ tag, get_enhanced_user_status (.unrecognized tag) =
      { display_text := "Unknown", exact_time := none,
        status_type := "unknown", privacy_restricted := false }) ∧
    (∀ s, (get_enhanced_user_status s).privacy_restricted = true →
      (get_enhanced_user_status s).exact_time = none) ∧
    (∀ s, (get_enhanced_user_status s).status_type = "online" →
      (get_enhanced_user_status s).exact_time = none ∧
      (get_enhanced_user_status s).privacy_restricted = false) ∧
    (∀ s, (get_enhanced_user_status s).status_type = "offline" →
      (get_enhanced_user_status s).exact_time ≠ none) := by
  refine ⟨rfl, fun t => rfl, rfl, rfl, rfl, rfl, fun tag => rfl, ?_, ?_, ?_⟩ <;>
    intro s <;> cases s <;> simp [get_enhanced_user_status]

/-- Witness for `C4_status_classifier` at concrete variants. -/
theorem C4_witness :
    (get_enhanced_user_status .recently).exact_time = none ∧
    (get_enhanced_user_status (.offline "2024-01-01 00:00:00 UTC")).exact_time ≠ none := by
  constructor
  · exact C4_status_classifier.2.2.2.2.2.2.2.1 .recently (by decide)
  · exact C4_status_classifier.2.2.2.2.2.2.2.2.2 (.offline "2024-01-01 00:00:00 UTC")
      (by decide)

/-- C10: whatever the platform client returns or raises, both resolvers
return normally with `some` profile or `none`; consequently the
`except ValueError` and `except Exception` branches of the two batch
loops are unreachable — every recorded entry is either a resolved user
or the "No Telegram account found" record. -/
theorem C10_resolvers_never_raise :
    (∀ (ops : ClientOps) (phone : String) (log : List Call),
      ∃ l r, check_phone_number ops phone log = (l, .ok r)) ∧
    (∀ (ops : ClientOps) (username : String) (log : List Call),
      ∃ l r, check_username ops username log = (l, .ok r)) ∧
    (∀ (ops : ClientOps) (phones : List String) (log : List Call),
      ∃ l m, process_phones ops phones log = (l, .ok m) ∧
        ∀ e ∈ m, (∃ u, e.2 = Entry.user u) ∨
          e.2 = Entry.error "No Telegram account found") ∧
    (∀ (ops : ClientOps) (usernames : List String) (log : List Call),
      ∃ l m, process_usernames ops usernames log = (l, .ok m) ∧
        ∀ e ∈ m, (∃ u, e.2 = Entry.user u) ∨
          e.2 = Entry.error "No Telegram account found") := by
  refine ⟨check_phone_number_total, check_username_total, ?_, ?_⟩
  · intro ops phones log
    obtain ⟨l, m, h1, h2⟩ := processLoop_ok_entries (check_phone_number ops)
      (check_phone_number_total ops) phones [] log
    refine ⟨l, m, h1, fun e he => ?_⟩
    rcases h2 e he with h | h | h
    · exact absurd h (List.not_mem_nil e)
    · exact Or.inl h
    · exact Or.inr h
  · intro ops usernames log
    obtain ⟨l, m, h1, h2⟩ := processLoop_ok_entries (check_username ops)
      (check_username_total ops) usernames [] log
    refine ⟨l, m, h1, fun e he => ?_⟩
    rcases h2 e he with h | h | h
    · exact absurd h (List.not_mem_nil e)
    · exact Or.inl h
    · exact Or.inr h

/-- Witness for `C10_resolvers_never_raise` at a concrete client and
inputs (an invalid phone, whose `ValueError` is swallowed). -/
theorem C10_witness :
    (∃ l r, check_phone_number opsNoUsers "bad-phone" [] = (l, .ok r)) ∧
    (∃ l m, process_phones opsNoUsers ["bad-phone"] [] = (l, .ok m) ∧
      ∀ e ∈ m, (∃ u, e.2 = Entry.user u) ∨
        e.2 = Entry.error "No Telegram account found") :=
  ⟨C10_resolvers_never_raise.1 opsNoUsers "bad-phone" [],
   C10_resolvers_never_raise.2.2.1 opsNoUsers ["bad-phone"] []⟩

/-- C3, counterexample.  The claim predicts the batch record
`{"bad-phone": {"error": "Invalid phone number format: bad-phone"}}`.
In the code, `check_phone_number` swallows the validator's `ValueError`
(its `except Exception` returns `None`), so the batch records the
not-found message instead — and the validator's own message would name
the normalized string `"+"`, not the raw `"bad-phone"`. -/
theorem C3_counterexample :
    process_phones opsNoUsers ["bad-phone"] [] =
      ([], .ok [("bad-phone", Entry.error "No Telegram account found")]) ∧
    validate_phone_number "bad-phone" =
      .error (.valueError "Invalid phone number format: +") ∧
    Entry.error "No Telegram account found" ≠
      Entry.error "Invalid phone number format: bad-phone" := by
  exact ⟨by decide, by decide, by decide⟩

/-- C3, amended: a syntactically invalid identifier still never reaches
the network (the trace is unchanged), but the per-item record is the
generic not-found error, because `check_phone_number` swallows the
`ValueError` and returns `None`. -/
theorem C3_invalid_never_reaches_network (ops : ClientOps) (raw : String)
    (results : List (String × Entry)) (log : List Call) (msg : String)
    (hnb : pyStrip raw ≠ "")
    (hval : validate_phone_number (pyStrip raw) = .error (.valueError msg)) :
    batchStep (check_phone_number ops) results raw log =
      (log, .ok (dictInsert results (pyStrip raw)
        (.error "No Telegram account found"))) := by
  rw [batchStep_run _ _ _ _ hnb,
    check_phone_number_invalid ops _ _ hval]
  simp [entryOf]

/-- Witness for `C3_invalid_never_reaches_network` on the input
`"bad-phone"`. -/
theorem C3_witness :
    batchStep (check_phone_number opsNoUsers) [] "bad-phone" [] =
      ([], .ok [("bad-phone", Entry.error "No Telegram account found")]) := by
  have h := C3_invalid_never_reaches_network opsNoUsers "bad-phone" [] []
    "Invalid phone number format: +" (by decide) (by decide)
  simpa [dictInsert] using h

theorem mem_dictKeysFold : ∀ (L ks : List String) (k : String),
    (k ∈ ks ∨ k ∈ L) → k ∈ dictKeysFold ks L := by
  intro L
  induction L with
  | nil =>
      intro ks k h
      rcases h with h | h
      · exact h
      · exact absurd h (List.not_mem_nil k)
  | cons a rest ih =>
      intro ks k h
      show k ∈ dictKeysFold (if a ∈ ks then ks else ks ++ [a]) rest
      rcases h with h | h
      · apply ih
        left
        by_cases hak : a ∈ ks <;> simp [hak, h]
      · rcases List.mem_cons.1 h with rfl | h2
        · apply ih
          left
          by_cases hak : k ∈ ks <;> simp [hak]
        · exact ih _ _ (Or.inr h2)

theorem nodup_dictKeysFold : ∀ (L ks : List String), ks.Nodup →
    (dictKeysFold ks L).Nodup := by
  intro L
  induction L with
  | nil => intro ks h; exact h
  | cons a rest ih =>
      intro ks h
      show (dictKeysFold (if a ∈ ks then ks else ks ++ [a]) rest).Nodup
      apply ih
      by_cases hak : a ∈ ks
      · simpa [hak] using h
      · simp only [hak, if_false]
        simp [List.nodup_append, h, hak]

/-- C6, counterexample.  The mapping key is *not* the original raw
string: for the raw input `" +15551234567 "` (with surrounding
blanks), the result is keyed by the stripped string
`"+15551234567"`; the per-item error arms also record under the
stripped key (`phone = phone.strip()` rebinds before any recording). -/
theorem C6_counterexample :
    process_phones opsNoUsers [" +15551234567 "] [] =
      ([Call.getEntityPhone "+15551234567", Call.importContacts "+15551234567"],
        .ok [("+15551234567", Entry.error "No Telegram account found")]) ∧
    (" +15551234567 " : String) ≠ "+15551234567" := by
  exact ⟨by decide, by decide⟩

/-- C6, amended: the batch never raises; its result mapping has exactly
one entry per *distinct stripped* non-blank input — keys are the
stripped identifiers in first-occurrence order with duplicates
collapsed (Python-dict last-write-wins), blanks are skipped, and every
non-blank input is represented under its stripped key. -/
theorem C6_keys_are_stripped_inputs (ops : ClientOps) (ids : List String)
    (log : List Call) :
    ∃ l m, process_phones ops ids log = (l, .ok m) ∧
      keysOf m = dictKeysFold [] ((ids.map pyStrip).filter (fun s => s ≠ "")) ∧
      (keysOf m).Nodup ∧
      ∀ raw ∈ ids, pyStrip raw ≠ "" → pyStrip raw ∈ keysOf m := by
  obtain ⟨l, m, h1, h2⟩ := processLoop_keys (check_phone_number ops) ids [] log
  refine ⟨l, m, h1, h2, ?_, ?_⟩
  · rw [h2]
    exact nodup_dictKeysFold _ _ List.nodup_nil
  · intro raw hraw hnb
    rw [h2]
    apply mem_dictKeysFold
    right
    exact List.mem_filter.2 ⟨List.mem_map.2 ⟨raw, hraw, rfl⟩, decide_eq_true hnb⟩

/-- Witness for `C6_keys_are_stripped_inputs` on the spec's example
input: two blanks are skipped, one entry remains. -/
theorem C6_witness :
    ∃ l m, process_phones opsNoUsers ["", "  ", "+15551234567"] [] = (l, .ok m) ∧
      keysOf m = ["+15551234567"] := by
  obtain ⟨l, m, h1, h2, _, _⟩ :=
    C6_keys_are_stripped_inputs opsNoUsers ["", "  ", "+15551234567"] []
  refine ⟨l, m, h1, ?_⟩
  rw [h2]
  decide

/-- C7: per-item failures are isolated.  A loop iteration never raises
whatever the resolver does; and on three non-blank identifiers whose
second resolution fails with an unexpected exception, the mapping still
has three entries — the second holds the "Unexpected error" record and
the first and third hold exactly what their own resolver outcomes
dictate. -/
theorem C7_per_item_isolation :
    (∀ (resolve : String → PM (Option TelegramUser))
       (results : List (String × Entry)) (raw : String) (log : List Call),
      ∃ l m, batchStep resolve results raw log = (l, .ok m)) ∧
    (∀ (resolve : String → PM (Option TelegramUser)) (a b c emsg : String),
      pyStrip a ≠ "" → pyStrip b ≠ "" → pyStrip c ≠ "" →
      pyStrip a ≠ pyStrip b → pyStrip b ≠ pyStrip c → pyStrip a ≠ pyStrip c →
      (resolve (pyStrip b) (resolve (pyStrip a) []).1).2 = .error (.rpcError emsg) →
      processLoop resolve [a, b, c] [] [] =
        ((resolve (pyStrip c) (resolve (pyStrip b) (resolve (pyStrip a) []).1).1).1,
         .ok [(pyStrip a, entryOf (resolve (pyStrip a) []).2),
              (pyStrip b, Entry.error ("Unexpected error: " ++ emsg)),
              (pyStrip c, entryOf
                (resolve (pyStrip c)
                  (resolve (pyStrip b) (resolve (pyStrip a) []).1).1).2)])) := by
  constructor
  · intro resolve results raw log
    by_cases h : pyStrip raw = ""
    · exact ⟨log, results, batchStep_blank _ _ _ _ h⟩
    · exact ⟨_, _, batchStep_run _ _ _ _ h⟩
  · intro resolve a b c emsg ha hb hc hab hbc hac herr
    have h1 := batchStep_run resolve [] a [] ha
    have h2 := batchStep_run resolve
      (dictInsert [] (pyStrip a) (entryOf (resolve (pyStrip a) []).2)) b
      (resolve (pyStrip a) []).1 hb
    have h3 := batchStep_run resolve
      (dictInsert (dictInsert [] (pyStrip a) (entryOf (resolve (pyStrip a) []).2))
        (pyStrip b) (entryOf (resolve (pyStrip b) (resolve (pyStrip a) []).1).2)) c
      (resolve (pyStrip b) (resolve (pyStrip a) []).1).1 hc
    simp only [processLoop, pmBind, h1, h2, h3, pmPure]
    simp [dictInsert, hab, hbc, hac, herr, entryOf, pyStr,
      (fun h => hab h.symm : ¬ pyStrip b = pyStrip a),
      (fun h => hac h.symm : ¬ pyStrip c = pyStrip a),
      (fun h => hbc h.symm : ¬ pyStrip c = pyStrip b)]

/-- Witness for `C7_per_item_isolation` on three concrete identifiers
whose second resolution raises. -/
theorem C7_witness :
    processLoop resolveProbe ["alpha1234", "beta12345", "gamma1234"] [] [] =
      ([], .ok [("alpha1234", Entry.error "No Telegram account found"),
                ("beta12345", Entry.error "Unexpected error: boom"),
                ("gamma1234", Entry.error "No Telegram account found")]) := by
  have h := C7_per_item_isolation.2 resolveProbe "alpha1234" "beta12345" "gamma1234"
    "boom" (by decide) (by decide) (by decide) (by decide) (by decide) (by decide)
    (by decide)
  exact h

theorem keepPhoneChars_eq_filter : ∀ l : List Char,
    keepPhoneChars l = l.filter (fun c => c.isDigit || c == '+') := by
  intro l
  induction l with
  | nil => rfl
  | cons c cs ih =>
      unfold keepPhoneChars
      rw [List.filter_cons]
      split <;> simp_all

theorem digitsOnly_eq_all : ∀ l : List Char, digitsOnly l = l.all Char.isDigit := by
  intro l
  induction l with
  | nil => rfl
  | cons c cs ih => simp [digitsOnly, List.all_cons, ih]

/-- C8, counterexample.  On `"1+234567890"` the claim's wording removes
the interior `+` and accepts, while the code keeps every `+`, so the
prepended string `"+1+234567890"` fails the regex and the call raises. -/
theorem C8_counterexample :
    normalizePhone_claim "1+234567890" = .ok "+1234567890" ∧
    validate_phone_number "1+234567890" =
      .error (.valueError "Invalid phone number format: +1+234567890") ∧
    validate_phone_number "1+234567890" ≠ normalizePhone_claim "1+234567890" := by
  exact ⟨by decide, by decide, by decide⟩

/-- C8, amended: `validate_phone_number` behaves exactly as the amended
wording `normalizePhone_amended` (every `+` is kept by the strip, so an
interior `+` forces failure); in particular `"abc"` and `"+12"` fail
with the `ValueError` naming the normalized string, and the function is
pure — no client operation is involved. -/
theorem C8_normalize_phone_refines :
    (∀ raw, validate_phone_number raw = normalizePhone_amended raw) ∧
    validate_phone_number "abc" =
      .error (.valueError "Invalid phone number format: +") ∧
    validate_phone_number "+12" =
      .error (.valueError "Invalid phone number format: +12") := by
  refine ⟨?_, by decide, by decide⟩
  intro raw
  unfold validate_phone_number normalizePhone_amended stripNonPhone
  rw [show (pyStrip raw).data.filter (fun c => c.isDigit || c == '+') =
      keepPhoneChars (pyStrip raw).data from (keepPhoneChars_eq_filter _).symm]
  cases hk : keepPhoneChars (pyStrip raw).data with
  | nil => simp [pyStartsWithPlus, matchesPhoneRegex, digitsOnly]
  | cons c rest =>
      by_cases hc : c = '+'
      · subst hc
        simp [pyStartsWithPlus, matchesPhoneRegex, digitsOnly_eq_all]
      · have hmk : ("+" ++ String.mk (c :: rest)) = String.mk ('+' :: c :: rest) := rfl
        simp [pyStartsWithPlus, hc, hmk, matchesPhoneRegex, digitsOnly_eq_all]

/-- C9, counterexample.  The caller supplies `"15551234567"` (no `+`):
the resolved profile's `phone` field carries the *normalized*
`"+15551234567"`, not the supplied string.  And a resolved username
lookup carries `""` in the `phone` field (and the platform's own
username in `username`), not the supplied username. -/
theorem C9_counterexample :
    phoneOfResult (check_phone_number opsDirectHit "15551234567" []).2 =
      some "+15551234567" ∧
    (some "+15551234567" : Option String) ≠ some "15551234567" ∧
    phoneOfResult (check_username opsDirectHit "someuser1" []).2 = some "" ∧
    (some "" : Option String) ≠ some "someuser1" := by
  exact ⟨by decide, by decide, by decide, by decide⟩

/-- C9, amended: every found profile of a phone lookup carries the
*normalized* supplied phone number (the output of
`validate_phone_number`) in its `phone` field, on the direct path and
on the fallback path alike; every found profile of a username lookup
carries `""` there. -/
theorem C9_query_identifier :
    (∀ (ops : ClientOps) (phone0 p : String) (log l : List Call) (tu : TelegramUser),
      validate_phone_number phone0 = .ok p →
      check_phone_number ops phone0 log = (l, .ok (some tu)) →
      tu.phone = p) ∧
    (∀ (ops : ClientOps) (un : String) (log l : List Call) (tu : TelegramUser),
      check_username ops un log = (l, .ok (some tu)) →
      tu.phone = "") := by
  constructor
  · intro ops phone0 p log l tu hv hrun
    cases hgep : ops.get_entity_phone log p with
    | ok u =>
        obtain ⟨ext, tu', heq, _, _, hph⟩ := check_phone_direct_ok ops phone0 p u log hv hgep
        rw [heq] at hrun
        simp only [Prod.mk.injEq, Except.ok.injEq, Option.some.injEq] at hrun
        rw [← hrun.2]
        exact hph
    | error e0 =>
        rw [check_phone_to_fallback ops phone0 p log hv e0 hgep] at hrun
        unfold pmTry at hrun
        cases himp : ops.import_contacts (log ++ [Call.getEntityPhone p]) p with
        | error e =>
            unfold contactFallback pmBind oper pmPure at hrun
            simp [himp] at hrun
        | ok users =>
            cases users with
            | nil =>
                unfold contactFallback pmBind oper pmPure at hrun
                simp [himp] at hrun
            | cons u rest =>
                have hcf : contactFallback ops p (log ++ [Call.getEntityPhone p]) =
                    resolveFromContact ops p u
                      (log ++ [Call.getEntityPhone p] ++ [Call.importContacts p]) := by
                  unfold contactFallback pmBind oper
                  simp [himp]
                rw [hcf] at hrun
                cases hgid : ops.get_entity_id
                    (log ++ [Call.getEntityPhone p] ++ [Call.importContacts p]) u.id with
                | error e1 =>
                    rw [resolveFromContact_gid_err ops p u _ e1 hgid] at hrun
                    simp [pmPure] at hrun
                | ok fu =>
                    cases hdel : ops.delete_contacts
                        (log ++ [Call.getEntityPhone p] ++ [Call.importContacts p] ++
                          [Call.getEntityId u.id]) u.id with
                    | error e2 =>
                        rw [resolveFromContact_del_err ops p u _ fu e2 hgid hdel] at hrun
                        simp [pmPure] at hrun
                    | ok un =>
                        obtain ⟨ext, tu', heq, _, _, hph⟩ :=
                          resolveFromContact_ok ops p u _ fu hgid hdel
                        rw [heq] at hrun
                        simp only [Prod.mk.injEq, Except.ok.injEq, Option.some.injEq] at hrun
                        rw [← hrun.2]
                        exact hph
  · intro ops un log l tu hrun
    unfold check_username pmTry pmBind liftE oper pmPure at hrun
    cases hval : validate_username un with
    | error e => simp [hval] at hrun
    | ok uname =>
        simp only [hval] at hrun
        cases hgeu : ops.get_entity_username log uname with
        | error e => simp [hgeu] at hrun
        | ok user =>
            by_cases hiu : user.isUser
            · obtain ⟨ext, tu', hph2, _, _, hphn⟩ :=
                photos_run ops user
                  (mkUser ops user "" (log ++ [Call.getEntityUsername uname]))
                  (log ++ [Call.getEntityUsername uname, Call.getFullUser user.id])
              simp only [hgeu, hiu, if_true, from_user_run, List.append_assoc,
                List.cons_append, List.singleton_append, List.nil_append, hph2] at hrun
              simp only [Prod.mk.injEq, Except.ok.injEq, Option.some.injEq] at hrun
              rw [← hrun.2, hphn, mkUser_phone]
            · simp [hgeu, hiu] at hrun

/-- Witness for `C9_query_identifier` on concrete lookups. -/
theorem C9_witness :
    phoneOfResult (check_phone_number opsDirectHit "15551234567" []).2 =
      some "+15551234567" := by
  have h := C9_query_identifier.1 opsDirectHit "15551234567" "+15551234567" []
    [Call.getEntityPhone "+15551234567", Call.getFullUser 7, Call.getProfilePhotos 7]
    tuDirect (by decide) (by decide)
  rw [show (check_phone_number opsDirectHit "15551234567" []).2 =
      .ok (some tuDirect) from by decide]
  simpa [phoneOfResult] using h
